import Mathlib

/-!
Verification development for the DataProfiler profiling and scoring engine
(`src/app.py`).

Embedding conventions:
* A cell is `Option ℚ`: `none` models a null/NaN input cell, `some q` a numeric
  value.  Floating point numbers are modelled as exact rationals; the float
  literals `0.7`, `0.5`, `1.5` of the source are exactly representable.
* A `Column` is a name together with its ordered cells; a `Frame` is the ordered
  list of columns of the dataset.  The claims under study concern numeric
  columns and null patterns only, so every cell is numeric here; null counting
  is independent of the payload type.
* `PyFloat` adds the IEEE NaN value where pandas produces it (`Series.std` and
  `Series.skew` on degenerate inputs).  Python comparisons on NaN are false and
  `abs NaN = NaN`, which `pyGtQ`/`pyAbs` reproduce.
* pandas quantiles use linear interpolation on the sorted non-null values,
  embedded by `quantileSorted`.
* The library Pearson-correlation routine (`DataFrame.corr`) is an external
  floating-point primitive; it is passed as an oracle `corr : ℕ → ℕ → ℚ`
  giving the matrix entry for a pair of numeric-column indices.
-/

/-- A dataset cell: `none` is a missing value. -/
abbrev Cell := Option ℚ

/-- A named dataset column. -/
structure Column where
  name : String
  cells : List Cell
deriving DecidableEq

/-- A dataset: the ordered list of its columns. -/
abbrev Frame := List Column

/-- `series.dropna()`: the non-null values of a column, in order. -/
def dropna (c : List Cell) : List ℚ :=
  c.filterMap id

/-- Per-column null count (`df.isnull().sum()` for one column). -/
def nullCount (c : List Cell) : ℕ :=
  (c.filter fun x => x.isNone).length

/-- `len(df)`: number of rows (length of the first column; all columns of a
well-formed dataset have equal length). -/
def rowCount (df : Frame) : ℕ :=
  match df with
  | [] => 0
  | c :: _ => c.cells.length

/-- `df.empty`: true iff any axis has length zero. -/
def frameEmpty (df : Frame) : Bool :=
  df.length = 0 || rowCount df = 0

/-- A Python float as produced by the statistics below: either NaN or a
(rational) number. -/
inductive PyFloat where
  | nan : PyFloat
  | val : ℚ → PyFloat
deriving DecidableEq

/-- Python `abs` on a float: `abs(nan) = nan`. -/
def pyAbs : PyFloat → PyFloat
  | .nan => .nan
  | .val q => .val |q|

/-- Python `f > c` for a float `f` and a number `c`: any comparison with NaN
is false. -/
def pyGtQ : PyFloat → ℚ → Bool
  | .nan, _ => false
  | .val q, c => decide (c < q)

/-- `series.mean()`. -/
def seriesMean (l : List ℚ) : ℚ :=
  l.sum / l.length

/-- pandas linear-interpolation quantile of an already sorted list: with
`h = q * (n - 1)`, `i = ⌊h⌋`, the result is `s[i] + (h - i) * (s[i+1] - s[i])`
(the upper index is only consulted when the fractional part is nonzero, so
defaulting the out-of-range lookup to `s[i]` is exact). -/
def quantileSorted (s : List ℚ) (q : ℚ) : ℚ :=
  if s.length = 0 then 0
  else
    let h : ℚ := q * ((s.length : ℚ) - 1)
    let i : ℕ := (⌊h⌋).toNat
    let lo : ℚ := s.getD i 0
    let hi : ℚ := s.getD (i + 1) lo
    lo + (h - (i : ℚ)) * (hi - lo)

/-- `series.quantile(q)`: sort the values, then interpolate linearly. -/
def quantile (l : List ℚ) (q : ℚ) : ℚ :=
  quantileSorted (l.insertionSort (· ≤ ·)) q

/-- `series.median()` is the 0.5 quantile. -/
def seriesMedian (l : List ℚ) : ℚ :=
  quantile l (1/2)

/-- `series.min()`. -/
def seriesMin (l : List ℚ) : ℚ :=
  match l with
  | [] => 0
  | x :: xs => xs.foldl min x

/-- `series.max()`. -/
def seriesMax (l : List ℚ) : ℚ :=
  match l with
  | [] => 0
  | x :: xs => xs.foldl max x

/-- Sample variance (`ddof = 1`), the square of `series.std()`. -/
def sampleVariance (l : List ℚ) : ℚ :=
  (l.map fun x => (x - seriesMean l) ^ 2).sum / ((l.length : ℚ) - 1)

/-- `series.std()` (sample standard deviation, `ddof = 1`): NaN when fewer
than 2 values (0/0); otherwise the square root of `sampleVariance`.  The
square root of a rational is irrational in general, so the defined branch
records the variance itself: every property proved below depends only on
which branch is taken (NaN versus an ordinary number), and the square root
preserves definedness. -/
def seriesStd (l : List ℚ) : PyFloat :=
  if l.length < 2 then .nan else .val (sampleVariance l)

/-- Central moment sum `m_k = Σ (x - mean)^k` used by pandas `nanskew`. -/
def centralSum (l : List ℚ) (k : ℕ) : ℚ :=
  (l.map fun x => (x - seriesMean l) ^ k).sum

/-- `series.skew()` (pandas `nanskew`): NaN when fewer than 3 values; 0 when
the variance is zero; otherwise `n·√(n-1)/(n-2) · m₃/m₂^1.5`.  The defined
branch records `m₃/m₂`, a positive multiple of the true value with the same
sign: as with `seriesStd`, the exact magnitude involves an irrational root
and no property below depends on it, only on NaN-ness. -/
def seriesSkew (l : List ℚ) : PyFloat :=
  if l.length < 3 then .nan
  else if centralSum l 2 = 0 then .val 0
  else .val (centralSum l 3 / centralSum l 2)

/-- Number of IQR outliers of a series, as computed inside
`DataProfiler._detect_outliers`: values strictly outside
`[Q1 - 1.5·IQR, Q3 + 1.5·IQR]`. -/
def countOutliers (l : List ℚ) : ℕ :=
  let q1 := quantile l (1/4)
  let q3 := quantile l (3/4)
  let iqr := q3 - q1
  let lower := q1 - 3/2 * iqr
  let upper := q3 + 3/2 * iqr
  (l.filter fun x => decide (x < lower) || decide (upper < x)).length

/-- `DataProfiler._has_outliers_iqr`: false outright for fewer than 4 values,
otherwise true iff some value lies strictly outside the IQR fences. -/
def has_outliers_iqr (l : List ℚ) : Bool :=
  if l.length < 4 then false
  else
    let q1 := quantile l (1/4)
    let q3 := quantile l (3/4)
    let iqr := q3 - q1
    let lower := q1 - 3/2 * iqr
    let upper := q3 + 3/2 * iqr
    l.any fun x => decide (x < lower) || decide (upper < x)

/-- One row of the dataset-wide outlier summary. -/
structure OutlierColumnEntry where
  column : String
  outlier_count : ℕ
  percentage : ℚ
deriving DecidableEq

/-- The dataset-wide outlier summary. -/
structure OutlierSummary where
  has_outliers : Bool
  outlier_columns : List OutlierColumnEntry
deriving DecidableEq

/-- The per-column body of `_detect_outliers`: `none` when the column is
skipped (no non-null values, or zero outliers). -/
def outlierEntry (c : Column) : Option OutlierColumnEntry :=
  let s := dropna c.cells
  if 0 < s.length then
    let cnt := countOutliers s
    if 0 < cnt then some ⟨c.name, cnt, ((cnt : ℚ) / (s.length : ℚ)) * 100⟩
    else none
  else none

/-- `DataProfiler._detect_outliers`. -/
def detect_outliers (df : Frame) : OutlierSummary :=
  if frameEmpty df then ⟨false, []⟩
  else
    let cols := df.filterMap outlierEntry
    ⟨!cols.isEmpty, cols⟩

/-- The numeric per-column profile of `_analyze_numeric_columns`. -/
structure NumericColStats where
  mean : ℚ
  median : ℚ
  std : PyFloat
  min : ℚ
  max : ℚ
  skewness : PyFloat
  has_outliers : Bool
deriving DecidableEq

/-- The record built for one numeric column with a non-empty series. -/
def numericColStats (s : List ℚ) : NumericColStats :=
  ⟨seriesMean s, seriesMedian s, seriesStd s, seriesMin s, seriesMax s,
    seriesSkew s, has_outliers_iqr s⟩

/-- `DataProfiler._analyze_numeric_columns`: `none` when there is no numeric
column; columns whose series is empty after dropping nulls are omitted. -/
def analyze_numeric_columns (df : Frame) : Option (List (String × NumericColStats)) :=
  if frameEmpty df then none
  else some (df.filterMap fun c =>
    let s := dropna c.cells
    if 0 < s.length then some (c.name, numericColStats s) else none)

/-- The skewness colour choice of `create_result_html`
(`"#D32F2F" if abs(skewness) > 1 else "#388E3C"`): the stored skewness is
consumed as a plain float comparison. -/
def skewColor (s : PyFloat) : String :=
  if pyGtQ (pyAbs s) 1 then "#D32F2F" else "#388E3C"

/-- A column of the missingness summary, decorated with its original column
index (used to express tie-breaking of the sort). -/
structure MissItem where
  idx : ℕ
  name : String
  cnt : ℕ
deriving DecidableEq

/-- The columns with at least one null, in original column order
(`missing_data[missing_data > 0]`), each with its original index. -/
def missingItems (df : Frame) : List MissItem :=
  (df.enum.map fun p => MissItem.mk p.1 p.2.name (nullCount p.2.cells)).filter
    fun it => decide (0 < it.cnt)

/-- `missing_data.sort_values(ascending=False)`: pandas computes a stable
ascending argsort of the counts (numpy introsort runs insertion sort on small
inputs) and reverses it, so the descending order is the reverse of the stable
ascending order. -/
def sortedMissing (df : Frame) : List MissItem :=
  ((missingItems df).insertionSort fun a b => a.cnt ≤ b.cnt).reverse

/-- The missingness summary of `_analyze_missing_data`.  In the source the
fields `total_missing` and `missing_percentage` are dictionary keys that are
simply absent in the no-missing branch, hence the `Option`. -/
structure MissingSummary where
  has_missing : Bool
  missing_columns : List (String × ℕ)
  total_missing : Option ℕ
  missing_percentage : Option ℚ
deriving DecidableEq

/-- `DataProfiler._analyze_missing_data`. -/
def analyze_missing_data (df : Frame) : MissingSummary :=
  let m := sortedMissing df
  if m.isEmpty then ⟨false, [], none, none⟩
  else
    let total : ℕ := (m.map fun it => it.cnt).sum
    ⟨true, m.map fun it => (it.name, it.cnt), some total,
      some (((total : ℚ) / (rowCount df : ℚ)) * 100)⟩

/-- The correlation summary of `_analyze_correlations`.  Strong pairs are
recorded as `(i, j, r)` with `i`, `j` the numeric-column indices (the source
stores the names at these indices of the matrix columns). -/
structure CorrelationSummary where
  matrix : ℕ → ℕ → ℚ
  strong_correlations : List (ℕ × ℕ × ℚ)
  count_strong : ℕ

/-- The double loop of `_analyze_correlations`: for `i` in `range(n)`, for
`j` in `range(i+1, n)`, keep `(i, j, r)` whenever `abs(r) > 0.7`. -/
def strongCorrelations (n : ℕ) (corr : ℕ → ℕ → ℚ) : List (ℕ × ℕ × ℚ) :=
  (List.range n).flatMap fun i =>
    (List.range' (i + 1) (n - (i + 1))).filterMap fun j =>
      if 7/10 < |corr i j| then some (i, j, corr i j) else none

/-- `DataProfiler._analyze_correlations`: absent for fewer than 2 numeric
columns. -/
def analyze_correlations (df : Frame) (corr : ℕ → ℕ → ℚ) : Option CorrelationSummary :=
  if df.length < 2 then none
  else some ⟨corr, strongCorrelations df.length corr,
    (strongCorrelations df.length corr).length⟩

/-- The rows of the dataset, as lists of cells (missing positions padded with
`none`, which never happens on equal-length columns). -/
def rowsOf (df : Frame) : List (List Cell) :=
  (List.range (rowCount df)).map fun i => df.map fun c => c.cells.getD i none

/-- Count rows equal to an earlier row (`df.duplicated().sum()`,
`keep='first'`). -/
def dupCountAux (seen : List (List Cell)) : List (List Cell) → ℕ
  | [] => 0
  | r :: rest => (if r ∈ seen then 1 else 0) + dupCountAux (r :: seen) rest

/-- `int(df.duplicated().sum())`. -/
def duplicateRows (df : Frame) : ℕ :=
  dupCountAux [] (rowsOf df)

/-- The `stats` dictionary of `analyze_dataset` (the fields consumed by the
quality scorer; the categorical/datetime counts are zero in this all-numeric
model and are used by no claim). -/
structure BasicStats where
  rows : ℕ
  cols : ℕ
  missing_values : ℕ
  duplicate_rows : ℕ
  numeric_columns : ℕ
deriving DecidableEq

/-- The basic statistics computed by `analyze_dataset`. -/
def statsOf (df : Frame) : BasicStats :=
  ⟨rowCount df, df.length, (df.map fun c => nullCount c.cells).sum,
    duplicateRows df, df.length⟩

/-- `max(0, min(100, score))`. -/
def clampQ (x : ℚ) : ℚ :=
  max 0 (min 100 x)

/-- The cell-level missing percentage used by the scorer:
`stats['missing_values'] / total_cells * 100`. -/
def missingPct (stats : BasicStats) : ℚ :=
  ((stats.missing_values : ℚ) / ((stats.rows : ℚ) * (stats.cols : ℚ))) * 100

/-- The duplicate-row percentage used by the scorer:
`stats['duplicate_rows'] / row_count * 100`. -/
def dupPct (stats : BasicStats) : ℚ :=
  ((stats.duplicate_rows : ℚ) / (stats.rows : ℚ)) * 100

/-- The first block of `calculate_quality_score`: subtract the missingness
penalty from the running score (guarded by `total_cells > 0`). -/
def missingStep (stats : BasicStats) (score : ℚ) : ℚ :=
  if 0 < (stats.rows : ℚ) * (stats.cols : ℚ) then
    if 10 < missingPct stats then score - missingPct stats * 2
    else if 5 < missingPct stats then score - missingPct stats
    else score
  else score

/-- The second block of `calculate_quality_score`: subtract the duplicate-row
penalty (guarded by `row_count > 0`). -/
def dupStep (stats : BasicStats) (score : ℚ) : ℚ :=
  if 0 < (stats.rows : ℚ) then
    if 5 < dupPct stats then score - dupPct stats * 3
    else if 1 < dupPct stats then score - dupPct stats * 2
    else score
  else score

/-- The third block of `calculate_quality_score`: subtract the outlier
penalty, keyed on the `has_outliers` flag of the outlier summary. -/
def outlierStep (stats : BasicStats) (o : OutlierSummary) (score : ℚ) : ℚ :=
  if o.has_outliers then
    if (stats.numeric_columns : ℚ) * (1/2) < (o.outlier_columns.length : ℚ) then score - 15
    else if 0 < (o.outlier_columns.length : ℚ) then score - 5
    else score
  else score

/-- The numeric score computed inside `calculate_quality_score`, before it is
bucketed into a verdict: start at 100, run the three penalty blocks in order,
clamp to `[0, 100]`. -/
def qualityScoreQ (stats : BasicStats) (o : OutlierSummary) : ℚ :=
  clampQ (outlierStep stats o (dupStep stats (missingStep stats 100)))

/-- `calculate_quality_score`: the four-tier verdict string derived from the
numeric score. -/
def calculate_quality_score (stats : BasicStats) (o : OutlierSummary) : String :=
  let score := qualityScoreQ stats o
  if 85 ≤ score then "EXCELENTE"
  else if 70 ≤ score then "BOM"
  else if 50 ≤ score then "ACEITÁVEL"
  else "PROBLEMAS"

/-- The missingness penalty exactly as the specification states it, as a
function of the cell-level missing percentage. -/
def missingPenalty (p : ℚ) : ℚ :=
  if 10 < p then p * 2 else if 5 < p then p else 0

/-- The duplicate penalty exactly as the specification states it, as a
function of the duplicate-row percentage. -/
def dupPenalty (p : ℚ) : ℚ :=
  if 5 < p then p * 3 else if 1 < p then p * 2 else 0

/-- The outlier penalty exactly as the specification states it: 15 when the
outlier columns outnumber half the numeric columns, else 5 when any column
has outliers, else 0. -/
def outlierPenalty (outCols numCols : ℕ) : ℚ :=
  if (numCols : ℚ) * (1/2) < (outCols : ℚ) then 15
  else if 0 < outCols then 5
  else 0

/-- The missingness penalty actually applied by the code (0 when the cell
count is zero, because the whole block is guarded). -/
def penMissing (stats : BasicStats) : ℚ :=
  if 0 < (stats.rows : ℚ) * (stats.cols : ℚ) then missingPenalty (missingPct stats)
  else 0

/-- The duplicate penalty actually applied by the code (0 when the row count
is zero). -/
def penDup (stats : BasicStats) : ℚ :=
  if 0 < (stats.rows : ℚ) then dupPenalty (dupPct stats)
  else 0

/-- The outlier penalty actually applied by the code, keyed on the
`has_outliers` flag. -/
def penOut (n : ℕ) (o : OutlierSummary) : ℚ :=
  if o.has_outliers then
    if (n : ℚ) * (1/2) < (o.outlier_columns.length : ℚ) then 15
    else if 0 < (o.outlier_columns.length : ℚ) then 5
    else 0
  else 0

/-- The profile object assembled by `analyze_dataset` (presentation-only
fields — the HTML sample, dtype listing — are outside the engine and omitted;
the categorical analysis is vacuous in this all-numeric model). -/
structure DatasetProfile where
  stats : BasicStats
  numeric_stats : Option (List (String × NumericColStats))
  missing_patterns : MissingSummary
  correlations : Option CorrelationSummary
  outliers : OutlierSummary

/-- The result of `analyze_dataset`: either an error dictionary or a profile. -/
inductive AnalyzeResult where
  | error : String → AnalyzeResult
  | ok : DatasetProfile → AnalyzeResult

/-- Python slicing `s[:n]` on a string. -/
def pyTruncate (s : String) (n : ℕ) : String :=
  (s.toList.take n).asString

/-- The successful body of `analyze_dataset` on a non-empty dataset. -/
def buildProfile (corr : ℕ → ℕ → ℚ) (df : Frame) : DatasetProfile :=
  ⟨statsOf df, analyze_numeric_columns df, analyze_missing_data df,
    analyze_correlations df corr, detect_outliers df⟩

/-- `DataProfiler.analyze_dataset`: the loader outcome is passed in as an
`Except` (`pd.read_csv`/`read_excel` may raise); a raised exception `e` is
caught by the surrounding handler and surfaced as the single message
`"Erro ao analisar dataset: " + str(e)[:150]`; an empty loaded dataset is
rejected with `"Dataset vazio"`. -/
def analyze_dataset (corr : ℕ → ℕ → ℚ) (load : Except String Frame) : AnalyzeResult :=
  match load with
  | .error e => .error ("Erro ao analisar dataset: " ++ pyTruncate e 150)
  | .ok df =>
    if frameEmpty df then .error "Dataset vazio"
    else .ok (buildProfile corr df)

/-! ### Quality scorer lemmas -/

lemma missingStep_eq (stats : BasicStats) (s : ℚ) :
    missingStep stats s = s - penMissing stats := by
  unfold missingStep penMissing missingPenalty
  split_ifs <;> ring

lemma dupStep_eq (stats : BasicStats) (s : ℚ) :
    dupStep stats s = s - penDup stats := by
  unfold dupStep penDup dupPenalty
  split_ifs <;> ring

lemma outlierStep_eq (stats : BasicStats) (o : OutlierSummary) (s : ℚ) :
    outlierStep stats o s = s - penOut stats.numeric_columns o := by
  unfold outlierStep penOut
  split_ifs <;> ring

lemma qualityScoreQ_eq (stats : BasicStats) (o : OutlierSummary) :
    qualityScoreQ stats o
      = clampQ (100 - (penMissing stats + penDup stats + penOut stats.numeric_columns o)) := by
  unfold qualityScoreQ
  rw [missingStep_eq, dupStep_eq, outlierStep_eq]
  apply congrArg clampQ
  ring

lemma clampQ_mono {x y : ℚ} (h : x ≤ y) : clampQ x ≤ clampQ y :=
  max_le_max le_rfl (min_le_min le_rfl h)

lemma missingPenalty_mono {a b : ℚ} (h : a ≤ b) : missingPenalty a ≤ missingPenalty b := by
  unfold missingPenalty
  split_ifs <;> linarith

lemma dupPenalty_mono {a b : ℚ} (h : a ≤ b) : dupPenalty a ≤ dupPenalty b := by
  unfold dupPenalty
  split_ifs <;> linarith

lemma penOut_nonneg (n : ℕ) (o : OutlierSummary) : 0 ≤ penOut n o := by
  unfold penOut
  split_ifs <;> norm_num

lemma penMissing_nonneg (stats : BasicStats) : 0 ≤ penMissing stats := by
  unfold penMissing missingPenalty
  split_ifs <;> linarith

lemma penDup_nonneg (stats : BasicStats) : 0 ≤ penDup stats := by
  unfold penDup dupPenalty
  split_ifs <;> linarith

lemma penOut_mono (n : ℕ) {o1 o2 : OutlierSummary}
    (h1 : o1.has_outliers = !o1.outlier_columns.isEmpty)
    (h2 : o2.has_outliers = !o2.outlier_columns.isEmpty)
    (hlen : o1.outlier_columns.length ≤ o2.outlier_columns.length) :
    penOut n o1 ≤ penOut n o2 := by
  unfold penOut
  rw [h1, h2]
  by_cases e1 : o1.outlier_columns.isEmpty
  · rw [e1]
    simp only [Bool.not_true, Bool.false_eq_true, if_false]
    split_ifs <;> norm_num
  · have hl1 : 0 < o1.outlier_columns.length := by
      rcases h : o1.outlier_columns with _ | ⟨a, as⟩
      · rw [h] at e1; simp at e1
      · simp
    have hl2 : 0 < o2.outlier_columns.length := lt_of_lt_of_le hl1 hlen
    have e1a : o1.outlier_columns.isEmpty = false := by
      rcases h : o1.outlier_columns with _ | ⟨a, as⟩
      · rw [h] at e1; simp at e1
      · rfl
    have e2 : o2.outlier_columns.isEmpty = false := by
      rcases h : o2.outlier_columns with _ | ⟨a, as⟩
      · rw [h] at hl2; simp at hl2
      · rfl
    rw [e1a, e2]
    simp only [Bool.not_false, if_true]
    have hc : (o1.outlier_columns.length : ℚ) ≤ (o2.outlier_columns.length : ℚ) := by
      exact_mod_cast hlen
    have hc1 : (0 : ℚ) < (o1.outlier_columns.length : ℚ) := by exact_mod_cast hl1
    have hc2 : (0 : ℚ) < (o2.outlier_columns.length : ℚ) := by exact_mod_cast hl2
    split_ifs <;> linarith

lemma penMissing_eq (stats : BasicStats) (hr : 0 < stats.rows) (hc : 0 < stats.cols) :
    penMissing stats = missingPenalty (missingPct stats) := by
  unfold penMissing
  rw [if_pos]
  exact mul_pos (by exact_mod_cast hr) (by exact_mod_cast hc)

lemma penDup_eq (stats : BasicStats) (hr : 0 < stats.rows) :
    penDup stats = dupPenalty (dupPct stats) := by
  unfold penDup
  rw [if_pos]
  exact_mod_cast hr

lemma penOut_eq (n : ℕ) (o : OutlierSummary)
    (hinv : o.has_outliers = !o.outlier_columns.isEmpty) :
    penOut n o = outlierPenalty o.outlier_columns.length n := by
  unfold penOut outlierPenalty
  rw [hinv]
  rcases h : o.outlier_columns with _ | ⟨a, as⟩
  · simp only [h, List.isEmpty_nil, Bool.not_true, Bool.false_eq_true, if_false, List.length_nil]
    rw [if_neg, if_neg]
    · exact lt_irrefl 0
    · push_neg
      positivity
  · simp only [h, List.isEmpty_cons, Bool.not_false, if_true, List.length_cons]
    have hposq : (0 : ℚ) < ((as.length + 1 : ℕ) : ℚ) := by positivity
    split_ifs <;> first
      | rfl
      | (exfalso; simp_all)

/-- Claim C1: for every dataset profile (positive row and column counts, and
an outlier summary whose flag agrees with its column list, as
`_detect_outliers` guarantees), the quality score equals
`clamp(100 - (missing penalty + duplicate penalty + outlier penalty), 0, 100)`
with the penalties exactly as specified, and the verdict is
EXCELLENT (`"EXCELENTE"`) iff score ≥ 85, GOOD (`"BOM"`) iff 70 ≤ score < 85,
ACCEPTABLE (`"ACEITÁVEL"`) iff 50 ≤ score < 70, and POOR (`"PROBLEMAS"`)
otherwise. -/
theorem C1_quality_score (stats : BasicStats) (o : OutlierSummary)
    (hr : 0 < stats.rows) (hc : 0 < stats.cols)
    (hinv : o.has_outliers = !o.outlier_columns.isEmpty) :
    qualityScoreQ stats o
      = clampQ (100 - (missingPenalty (missingPct stats) + dupPenalty (dupPct stats)
          + outlierPenalty o.outlier_columns.length stats.numeric_columns))
    ∧ (calculate_quality_score stats o = "EXCELENTE" ↔ 85 ≤ qualityScoreQ stats o)
    ∧ (calculate_quality_score stats o = "BOM"
        ↔ 70 ≤ qualityScoreQ stats o ∧ qualityScoreQ stats o < 85)
    ∧ (calculate_quality_score stats o = "ACEITÁVEL"
        ↔ 50 ≤ qualityScoreQ stats o ∧ qualityScoreQ stats o < 70)
    ∧ (calculate_quality_score stats o = "PROBLEMAS" ↔ qualityScoreQ stats o < 50) := by
  constructor
  · rw [qualityScoreQ_eq, penMissing_eq stats hr hc, penDup_eq stats hr,
      penOut_eq stats.numeric_columns o hinv]
  · have hv : calculate_quality_score stats o
        = (if 85 ≤ qualityScoreQ stats o then "EXCELENTE"
           else if 70 ≤ qualityScoreQ stats o then "BOM"
           else if 50 ≤ qualityScoreQ stats o then "ACEITÁVEL"
           else "PROBLEMAS") := rfl
    rw [hv]
    split_ifs with h1 h2 h3 <;> refine ⟨?_, ?_, ?_, ?_⟩ <;>
      constructor <;> intro hx <;> first
        | rfl
        | assumption
        | (exact ⟨by linarith, by linarith⟩)
        | (exfalso; revert hx; decide)
        | (exfalso
           rcases hx with ⟨hx1, hx2⟩
           linarith)
        | linarith

/-- Witness for C1: a 100-row, 3-column profile with no defects satisfies the
verdict characterisation. -/
theorem C1_witness :
    calculate_quality_score ⟨100, 3, 0, 0, 3⟩ ⟨false, []⟩ = "EXCELENTE"
      ↔ 85 ≤ qualityScoreQ ⟨100, 3, 0, 0, 3⟩ ⟨false, []⟩ :=
  (C1_quality_score ⟨100, 3, 0, 0, 3⟩ ⟨false, []⟩ (by norm_num) (by norm_num) rfl).2.1

lemma penMissing_mono_ante {stats : BasicStats} (m1 m2 : ℕ) (hm : m1 ≤ m2) :
    penMissing { stats with missing_values := m1 }
      ≤ penMissing { stats with missing_values := m2 } := by
  unfold penMissing
  split_ifs with h
  · apply missingPenalty_mono
    unfold missingPct
    have hq : (m1 : ℚ) ≤ (m2 : ℚ) := by exact_mod_cast hm
    have h0 : (0 : ℚ) ≤ (stats.rows : ℚ) * (stats.cols : ℚ) := le_of_lt h
    gcongr
  · exact le_refl 0

lemma penDup_mono_ante {stats : BasicStats} (d1 d2 : ℕ) (hd : d1 ≤ d2) :
    penDup { stats with duplicate_rows := d1 }
      ≤ penDup { stats with duplicate_rows := d2 } := by
  unfold penDup
  split_ifs with h
  · apply dupPenalty_mono
    unfold dupPct
    have hq : (d1 : ℚ) ≤ (d2 : ℚ) := by exact_mod_cast hd
    have h0 : (0 : ℚ) ≤ (stats.rows : ℚ) := le_of_lt h
    gcongr
  · exact le_refl 0

/-- Claim C4: the quality score is monotonically non-increasing in the
missing-value count (hence percentage), the duplicate-row count (hence
percentage), and the number of outlier columns (hence the outlier-column
fraction at fixed numeric-column count), holding all other profile fields
fixed; the outlier summaries are required to have a flag consistent with
their column list, as `_detect_outliers` guarantees. -/
theorem C4_monotone (stats : BasicStats) (o : OutlierSummary) :
    (∀ m1 m2 : ℕ, m1 ≤ m2 →
      qualityScoreQ { stats with missing_values := m2 } o
        ≤ qualityScoreQ { stats with missing_values := m1 } o)
    ∧ (∀ d1 d2 : ℕ, d1 ≤ d2 →
      qualityScoreQ { stats with duplicate_rows := d2 } o
        ≤ qualityScoreQ { stats with duplicate_rows := d1 } o)
    ∧ (∀ o1 o2 : OutlierSummary,
      o1.has_outliers = !o1.outlier_columns.isEmpty →
      o2.has_outliers = !o2.outlier_columns.isEmpty →
      o1.outlier_columns.length ≤ o2.outlier_columns.length →
      qualityScoreQ stats o2 ≤ qualityScoreQ stats o1) := by
  refine ⟨?_, ?_, ?_⟩
  · intro m1 m2 hm
    rw [qualityScoreQ_eq, qualityScoreQ_eq]
    apply clampQ_mono
    have hpm := @penMissing_mono_ante stats m1 m2 hm
    have hpd : penDup { stats with missing_values := m2 }
        = penDup { stats with missing_values := m1 } := rfl
    have hpo : penOut ({ stats with missing_values := m2 } : BasicStats).numeric_columns o
        = penOut ({ stats with missing_values := m1 } : BasicStats).numeric_columns o := rfl
    rw [hpd, hpo]
    linarith
  · intro d1 d2 hd
    rw [qualityScoreQ_eq, qualityScoreQ_eq]
    apply clampQ_mono
    have hpd := @penDup_mono_ante stats d1 d2 hd
    have hpm : penMissing { stats with duplicate_rows := d2 }
        = penMissing { stats with duplicate_rows := d1 } := rfl
    have hpo : penOut ({ stats with duplicate_rows := d2 } : BasicStats).numeric_columns o
        = penOut ({ stats with duplicate_rows := d1 } : BasicStats).numeric_columns o := rfl
    rw [hpm, hpo]
    linarith
  · intro o1 o2 h1 h2 hlen
    rw [qualityScoreQ_eq, qualityScoreQ_eq]
    apply clampQ_mono
    have hpo := penOut_mono stats.numeric_columns h1 h2 hlen
    linarith

/-- Witness for C4: concrete monotonicity instances on a 100-row, 3-column
profile. -/
theorem C4_witness :
    qualityScoreQ ⟨100, 3, 50, 0, 3⟩ ⟨false, []⟩ ≤ qualityScoreQ ⟨100, 3, 0, 0, 3⟩ ⟨false, []⟩
    ∧ qualityScoreQ ⟨100, 3, 0, 7, 3⟩ ⟨false, []⟩ ≤ qualityScoreQ ⟨100, 3, 0, 0, 3⟩ ⟨false, []⟩
    ∧ qualityScoreQ ⟨100, 3, 0, 0, 3⟩ ⟨true, [⟨"a", 1, 1⟩]⟩
        ≤ qualityScoreQ ⟨100, 3, 0, 0, 3⟩ ⟨false, []⟩ :=
  ⟨(C4_monotone ⟨100, 3, 0, 0, 3⟩ ⟨false, []⟩).1 0 50 (by norm_num),
   (C4_monotone ⟨100, 3, 0, 0, 3⟩ ⟨false, []⟩).2.1 0 7 (by norm_num),
   (C4_monotone ⟨100, 3, 0, 0, 3⟩ ⟨false, []⟩).2.2 ⟨false, []⟩ ⟨true, [⟨"a", 1, 1⟩]⟩
     rfl rfl (by norm_num)⟩

/-! ### Quantile lemmas -/

lemma quantileSorted_singleton (a q : ℚ) : quantileSorted [a] q = a := by
  simp only [quantileSorted, List.length_singleton]
  norm_num

lemma quantileSorted_pair_q1 (a b : ℚ) :
    quantileSorted [a, b] (1/4) = a + 1/4 * (b - a) := by
  simp only [quantileSorted]
  norm_num [List.getD]

lemma quantileSorted_pair_q3 (a b : ℚ) :
    quantileSorted [a, b] (3/4) = a + 3/4 * (b - a) := by
  simp only [quantileSorted]
  norm_num [List.getD]

lemma quantileSorted_triple_q1 (a b c : ℚ) :
    quantileSorted [a, b, c] (1/4) = a + 1/2 * (b - a) := by
  simp only [quantileSorted]
  norm_num [List.getD]

lemma quantileSorted_triple_q3 (a b c : ℚ) :
    quantileSorted [a, b, c] (3/4) = b + 1/2 * (c - b) := by
  simp only [quantileSorted]
  norm_num [List.getD]

/-- On a series of at most 3 values, every value lies inside the IQR fences
computed by pandas linear-interpolation quantiles: Python's
`_detect_outliers` can therefore never flag such a column even though it
lacks the explicit size guard of `_has_outliers_iqr`. -/
lemma small_series_within_fences (l : List ℚ) (hn : l.length ≤ 3) (x : ℚ) (hx : x ∈ l) :
    quantile l (1/4) - 3/2 * (quantile l (3/4) - quantile l (1/4)) ≤ x
    ∧ x ≤ quantile l (3/4) + 3/2 * (quantile l (3/4) - quantile l (1/4)) := by
  have hperm := List.perm_insertionSort (· ≤ ·) l
  have hsort := List.sorted_insertionSort (· ≤ ·) l
  have hx2 : x ∈ l.insertionSort (· ≤ ·) := hperm.mem_iff.mpr hx
  have hlen : (l.insertionSort (· ≤ ·)).length = l.length := hperm.length_eq
  unfold quantile
  rcases hs : l.insertionSort (· ≤ ·) with _ | ⟨a, _ | ⟨b, _ | ⟨c, _ | ⟨d, t⟩⟩⟩⟩
  · rw [hs] at hx2
    exact absurd hx2 (List.not_mem_nil x)
  · rw [hs] at hx2
    rw [List.mem_singleton] at hx2
    subst hx2
    rw [quantileSorted_singleton, quantileSorted_singleton]
    constructor <;> linarith
  · rw [hs] at hx2 hsort
    have hab : a ≤ b := List.rel_of_sorted_cons hsort b (by simp)
    rw [quantileSorted_pair_q1, quantileSorted_pair_q3]
    simp only [List.mem_cons, List.mem_singleton] at hx2
    rcases hx2 with rfl | rfl | h
    · constructor <;> linarith
    · constructor <;> linarith
    · exact absurd h (List.not_mem_nil x)
  · rw [hs] at hx2 hsort
    have hab : a ≤ b := List.rel_of_sorted_cons hsort b (by simp)
    have hac : a ≤ c := List.rel_of_sorted_cons hsort c (by simp)
    have hbc : b ≤ c := List.rel_of_sorted_cons hsort.of_cons c (by simp)
    rw [quantileSorted_triple_q1, quantileSorted_triple_q3]
    simp only [List.mem_cons, List.mem_singleton] at hx2
    rcases hx2 with rfl | rfl | rfl | h
    · constructor <;> linarith
    · constructor <;> linarith
    · constructor <;> linarith
    · exact absurd h (List.not_mem_nil x)
  · rw [hs] at hlen
    simp only [List.length_cons] at hlen
    omega

lemma countOutliers_small (l : List ℚ) (hn : l.length ≤ 3) : countOutliers l = 0 := by
  unfold countOutliers
  rw [List.length_eq_zero, List.filter_eq_nil_iff]
  intro x hx
  obtain ⟨h1, h2⟩ := small_series_within_fences l hn x hx
  simp only [Bool.or_eq_true, decide_eq_true_eq, not_or, not_lt]
  exact ⟨h1, h2⟩

lemma outlierEntry_eq_some (c : Column) (e : OutlierColumnEntry)
    (h : outlierEntry c = some e) :
    e.column = c.name ∧ e.outlier_count = countOutliers (dropna c.cells)
      ∧ 0 < countOutliers (dropna c.cells) ∧ 0 < (dropna c.cells).length := by
  simp only [outlierEntry] at h
  split_ifs at h with g1 g2
  rw [Option.some_inj] at h
  subst h
  exact ⟨rfl, rfl, g2, g1⟩

lemma detect_outliers_mem (df : Frame) (e : OutlierColumnEntry)
    (he : e ∈ (detect_outliers df).outlier_columns) :
    ∃ c ∈ df, outlierEntry c = some e := by
  simp only [detect_outliers] at he
  split_ifs at he with hfe
  · simp at he
  · exact List.mem_filterMap.mp (by simpa using he)

/-- Claim C3: a numeric column with fewer than 4 non-null values reports no
outliers: `_has_outliers_iqr` returns false, and the dataset-wide summary of
`_detect_outliers` contains no entry for that column (column names are
assumed distinct, as in a pandas frame). -/
theorem C3_small_series_no_outliers (df : Frame) (c : Column) (hc : c ∈ df)
    (hnames : (df.map Column.name).Nodup)
    (hn : (dropna c.cells).length < 4) :
    has_outliers_iqr (dropna c.cells) = false
    ∧ ∀ e ∈ (detect_outliers df).outlier_columns, e.column ≠ c.name := by
  constructor
  · unfold has_outliers_iqr
    rw [if_pos hn]
  · intro e he heq
    obtain ⟨c2, hc2, hent⟩ := detect_outliers_mem df e he
    obtain ⟨hname, -, hpos, -⟩ := outlierEntry_eq_some c2 e hent
    have hcc : c2 = c :=
      List.inj_on_of_nodup_map hnames hc2 hc (by rw [← hname, heq])
    subst hcc
    rw [countOutliers_small (dropna c2.cells) (by omega)] at hpos
    exact lt_irrefl 0 hpos

/-- Witness for C3: a 3-value column is never flagged. -/
theorem C3_witness :
    has_outliers_iqr (dropna [some 1, some 2, some 100]) = false
    ∧ ∀ e ∈ (detect_outliers [⟨"a", [some 1, some 2, some 100]⟩]).outlier_columns,
        e.column ≠ "a" :=
  C3_small_series_no_outliers [⟨"a", [some 1, some 2, some 100]⟩]
    ⟨"a", [some 1, some 2, some 100]⟩ (by simp) (by simp) (by simp [dropna])

/-- Any quantile (with `0 ≤ q ≤ 1`) of a nonempty constant series is the
constant value. -/
lemma quantileSorted_const (s : List ℚ) (v : ℚ) (hne : s ≠ [])
    (hall : ∀ x ∈ s, x = v) (q : ℚ) (h0 : 0 ≤ q) (h1 : q ≤ 1) :
    quantileSorted s q = v := by
  have hlen : s.length ≠ 0 := by simpa [List.length_eq_zero] using hne
  have hn1 : 1 ≤ s.length := Nat.one_le_iff_ne_zero.mpr hlen
  have hn1q : (1 : ℚ) ≤ (s.length : ℚ) := by exact_mod_cast hn1
  simp only [quantileSorted]
  rw [if_neg hlen]
  have hh0 : 0 ≤ q * ((s.length : ℚ) - 1) := by
    apply mul_nonneg h0
    linarith
  have hhub : q * ((s.length : ℚ) - 1) ≤ (s.length : ℚ) - 1 := by
    calc q * ((s.length : ℚ) - 1) ≤ 1 * ((s.length : ℚ) - 1) := by
          apply mul_le_mul_of_nonneg_right h1
          linarith
    _ = (s.length : ℚ) - 1 := one_mul _
  have hflub : ⌊q * ((s.length : ℚ) - 1)⌋ ≤ (s.length : ℤ) - 1 := by
    have h2 : ((s.length : ℤ) : ℚ) - 1 = (((s.length : ℤ) - 1 : ℤ) : ℚ) := by push_cast; ring
    have h3 : q * ((s.length : ℚ) - 1) ≤ (((s.length : ℤ) - 1 : ℤ) : ℚ) := by
      push_cast
      push_cast at hhub
      linarith
    calc ⌊q * ((s.length : ℚ) - 1)⌋ ≤ ⌊(((s.length : ℤ) - 1 : ℤ) : ℚ)⌋ :=
          Int.floor_le_floor h3
    _ = (s.length : ℤ) - 1 := Int.floor_intCast _
  have hilt : (⌊q * ((s.length : ℚ) - 1)⌋).toNat < s.length := by
    omega
  have hlo : s.getD (⌊q * ((s.length : ℚ) - 1)⌋).toNat 0 = v := by
    rw [List.getD_eq_getElem s 0 hilt]
    exact hall _ (List.getElem_mem hilt)
  have hhi : s.getD ((⌊q * ((s.length : ℚ) - 1)⌋).toNat + 1)
      (s.getD (⌊q * ((s.length : ℚ) - 1)⌋).toNat 0) = v := by
    by_cases hlt : (⌊q * ((s.length : ℚ) - 1)⌋).toNat + 1 < s.length
    · rw [List.getD_eq_getElem s _ hlt]
      exact hall _ (List.getElem_mem hlt)
    · rw [List.getD_eq_default _ _ (by omega)]
      exact hlo
  rw [hhi, hlo]
  ring

/-- Claim C10: for a numeric column whose non-null values are all equal,
both quartiles collapse to the common value (so the IQR is 0 and the fences
coincide with that value), the strict comparisons exclude every element, and
hence `_has_outliers_iqr` returns false and `_detect_outliers` omits the
column (column names assumed distinct, as in a pandas frame). -/
theorem C10_zero_variance_no_outliers (df : Frame) (c : Column) (v : ℚ) (hc : c ∈ df)
    (hnames : (df.map Column.name).Nodup)
    (hne : dropna c.cells ≠ [])
    (hall : ∀ x ∈ dropna c.cells, x = v) :
    quantile (dropna c.cells) (1/4) = v
    ∧ quantile (dropna c.cells) (3/4) = v
    ∧ has_outliers_iqr (dropna c.cells) = false
    ∧ ∀ e ∈ (detect_outliers df).outlier_columns, e.column ≠ c.name := by
  have hsp := List.perm_insertionSort (· ≤ ·) (dropna c.cells)
  have hs_ne : (dropna c.cells).insertionSort (· ≤ ·) ≠ [] := by
    intro h
    apply hne
    have hl := hsp.length_eq
    rw [h] at hl
    simpa [List.length_eq_zero] using hl.symm
  have hs_all : ∀ x ∈ (dropna c.cells).insertionSort (· ≤ ·), x = v :=
    fun x hx => hall x (hsp.mem_iff.mp hx)
  have hq1 : quantile (dropna c.cells) (1/4) = v :=
    quantileSorted_const _ v hs_ne hs_all (1/4) (by norm_num) (by norm_num)
  have hq3 : quantile (dropna c.cells) (3/4) = v :=
    quantileSorted_const _ v hs_ne hs_all (3/4) (by norm_num) (by norm_num)
  have e1 : v - 3/2 * (v - v) = v := by ring
  have e2 : v + 3/2 * (v - v) = v := by ring
  have hcnt : countOutliers (dropna c.cells) = 0 := by
    simp only [countOutliers]
    rw [hq1, hq3, e1, e2, List.length_eq_zero, List.filter_eq_nil_iff]
    intro x hx
    rw [hall x hx]
    simp
  have hflag : has_outliers_iqr (dropna c.cells) = false := by
    by_cases hl : (dropna c.cells).length < 4
    · simp only [has_outliers_iqr]
      rw [if_pos hl]
    · simp only [has_outliers_iqr]
      rw [if_neg hl, hq1, hq3, e1, e2, List.any_eq_false]
      intro x hx
      rw [hall x hx]
      simp
  refine ⟨hq1, hq3, hflag, ?_⟩
  intro e he heq
  obtain ⟨c2, hc2, hent⟩ := detect_outliers_mem df e he
  obtain ⟨hname, -, hpos, -⟩ := outlierEntry_eq_some c2 e hent
  have hcc : c2 = c :=
    List.inj_on_of_nodup_map hnames hc2 hc (by rw [← hname, heq])
  subst hcc
  rw [hcnt] at hpos
  exact lt_irrefl 0 hpos

/-- Witness for C10: a constant column `[2, null, 2]`. -/
theorem C10_witness :
    quantile (dropna [some 2, none, some 2]) (1/4) = 2
    ∧ quantile (dropna [some 2, none, some 2]) (3/4) = 2
    ∧ has_outliers_iqr (dropna [some 2, none, some 2]) = false
    ∧ ∀ e ∈ (detect_outliers [⟨"k", [some 2, none, some 2]⟩]).outlier_columns,
        e.column ≠ "k" :=
  C10_zero_variance_no_outliers [⟨"k", [some 2, none, some 2]⟩]
    ⟨"k", [some 2, none, some 2]⟩ 2 (by simp) (by simp)
    (by simp [dropna]) (by simp [dropna])

lemma countOutliers_pos_iff (l : List ℚ) :
    0 < countOutliers l ↔ (l.any fun x =>
      decide (x < quantile l (1/4) - 3/2 * (quantile l (3/4) - quantile l (1/4)))
      || decide (quantile l (3/4) + 3/2 * (quantile l (3/4) - quantile l (1/4)) < x))
      = true := by
  simp only [countOutliers]
  rw [List.length_pos, Ne, List.filter_eq_nil_iff, List.any_eq_true]
  push_neg
  constructor
  · rintro ⟨x, hx, hpx⟩
    exact ⟨x, hx, hpx⟩
  · rintro ⟨x, hx, hpx⟩
    exact ⟨x, hx, hpx⟩

/-- Claim C9: for every numeric column with at least one non-null value (in a
dataset with distinct column names and equal column lengths), the
`has_outliers` flag of `_has_outliers_iqr` is true iff the column appears in
the `_detect_outliers` summary with a positive outlier count. -/
theorem C9_outlier_computations_agree (df : Frame) (c : Column) (hc : c ∈ df)
    (hnames : (df.map Column.name).Nodup)
    (hlens : ∀ c1 ∈ df, ∀ c2 ∈ df, c1.cells.length = c2.cells.length)
    (hpos : 0 < (dropna c.cells).length) :
    has_outliers_iqr (dropna c.cells) = true
      ↔ ∃ e ∈ (detect_outliers df).outlier_columns,
          e.column = c.name ∧ 0 < e.outlier_count := by
  have hdrople : (dropna c.cells).length ≤ c.cells.length :=
    List.length_filterMap_le id c.cells
  have hfe : frameEmpty df = false := by
    rcases df with _ | ⟨c0, rest⟩
    · exact absurd hc (List.not_mem_nil c)
    · have h1 : c.cells.length = c0.cells.length := hlens c hc c0 (by simp)
      have h3 : c0.cells.length ≠ 0 := by omega
      simp [frameEmpty, rowCount, h3]
  have hdet : (detect_outliers df).outlier_columns = df.filterMap outlierEntry := by
    simp only [detect_outliers, hfe, Bool.false_eq_true, if_false]
  constructor
  · intro hfl
    have hn4 : ¬(dropna c.cells).length < 4 := by
      intro h4
      simp only [has_outliers_iqr] at hfl
      rw [if_pos h4] at hfl
      exact Bool.false_ne_true hfl
    simp only [has_outliers_iqr] at hfl
    rw [if_neg hn4] at hfl
    have hcnt : 0 < countOutliers (dropna c.cells) := (countOutliers_pos_iff _).mpr hfl
    have hent : outlierEntry c = some ⟨c.name, countOutliers (dropna c.cells),
        ((countOutliers (dropna c.cells) : ℚ) / ((dropna c.cells).length : ℚ)) * 100⟩ := by
      simp only [outlierEntry]
      rw [if_pos hpos, if_pos hcnt]
    refine ⟨⟨c.name, countOutliers (dropna c.cells),
        ((countOutliers (dropna c.cells) : ℚ) / ((dropna c.cells).length : ℚ)) * 100⟩,
      ?_, rfl, hcnt⟩
    rw [hdet]
    exact List.mem_filterMap.mpr ⟨c, hc, hent⟩
  · rintro ⟨e, he, heq, -⟩
    obtain ⟨c2, hc2, hent⟩ := detect_outliers_mem df e he
    obtain ⟨hname, -, hcpos, -⟩ := outlierEntry_eq_some c2 e hent
    have hcc : c2 = c :=
      List.inj_on_of_nodup_map hnames hc2 hc (by rw [← hname, heq])
    subst hcc
    have hn4 : ¬(dropna c2.cells).length < 4 := by
      intro h4
      rw [countOutliers_small _ (by omega)] at hcpos
      exact lt_irrefl 0 hcpos
    simp only [has_outliers_iqr]
    rw [if_neg hn4]
    exact (countOutliers_pos_iff _).mp hcpos

lemma dropna_example5 :
    dropna [some 1, some 2, some 3, some 4, some 100] = [1, 2, 3, 4, 100] := by
  simp [dropna]

lemma sort_example5 :
    ([1, 2, 3, 4, 100] : List ℚ).insertionSort (· ≤ ·) = [1, 2, 3, 4, 100] := by
  norm_num [List.insertionSort, List.orderedInsert]

lemma has_outliers_example5 :
    has_outliers_iqr [1, 2, 3, 4, 100] = true := by
  have hq1 : quantile [1, 2, 3, 4, 100] (1/4) = 2 := by
    rw [quantile, sort_example5]
    simp only [quantileSorted]
    norm_num [List.getD]
  have hq3 : quantile [1, 2, 3, 4, 100] (3/4) = 4 := by
    rw [quantile, sort_example5]
    simp only [quantileSorted]
    norm_num
    have h3 : Int.toNat 3 = 3 := rfl
    simp only [h3]
    norm_num
  simp only [has_outliers_iqr]
  rw [if_neg (by simp), hq1, hq3, List.any_eq_true]
  refine ⟨100, by simp, ?_⟩
  simp only [Bool.or_eq_true, decide_eq_true_eq]
  right
  norm_num

/-- Witness for C9: on the column `[1, 2, 3, 4, 100]`, the flag is true and
the dataset-wide summary indeed lists the column with a positive count. -/
theorem C9_witness :
    ∃ e ∈ (detect_outliers [⟨"a", [some 1, some 2, some 3, some 4, some 100]⟩]).outlier_columns,
      e.column = "a" ∧ 0 < e.outlier_count :=
  (C9_outlier_computations_agree [⟨"a", [some 1, some 2, some 3, some 4, some 100]⟩]
    ⟨"a", [some 1, some 2, some 3, some 4, some 100]⟩ (by simp) (by simp) (by simp)
    (by rw [dropna_example5]; simp)).mp
    (by rw [dropna_example5]; exact has_outliers_example5)

/-- Claim C2: `analyze_dataset` rejects an empty loaded dataset with an error
result instead of raising; any loader exception is caught and surfaced as a
single message embedding the exception text truncated to at most 150
characters; and on every input the function totally returns either an error
or a profile (the embedded engine body is a total function, so no exception
escapes). -/
theorem C2_analyze_dataset_safe (corr : ℕ → ℕ → ℚ) (load : Except String Frame) :
    (∀ df, load = Except.ok df → frameEmpty df = true →
      analyze_dataset corr load = AnalyzeResult.error "Dataset vazio")
    ∧ (∀ e, load = Except.error e →
      analyze_dataset corr load
          = AnalyzeResult.error ("Erro ao analisar dataset: " ++ pyTruncate e 150)
        ∧ (pyTruncate e 150).length ≤ 150)
    ∧ ((∃ m, analyze_dataset corr load = AnalyzeResult.error m)
        ∨ (∃ p, analyze_dataset corr load = AnalyzeResult.ok p)) := by
  refine ⟨?_, ?_, ?_⟩
  · rintro df rfl hempty
    simp only [analyze_dataset]
    rw [if_pos hempty]
  · rintro e rfl
    refine ⟨rfl, ?_⟩
    simp only [pyTruncate]
    rw [List.length_asString, List.length_take]
    exact min_le_left _ _
  · cases load with
    | error e => exact Or.inl ⟨_, rfl⟩
    | ok df =>
      by_cases h : frameEmpty df = true
      · refine Or.inl ⟨"Dataset vazio", ?_⟩
        simp only [analyze_dataset]
        rw [if_pos h]
      · refine Or.inr ⟨buildProfile corr df, ?_⟩
        simp only [analyze_dataset]
        rw [if_neg h]

/-- Witness for C2: the empty frame is rejected, and a concrete loader
exception is surfaced truncated. -/
theorem C2_witness :
    analyze_dataset (fun _ _ => 0) (Except.ok []) = AnalyzeResult.error "Dataset vazio"
    ∧ analyze_dataset (fun _ _ => 0) (Except.error "boom")
        = AnalyzeResult.error ("Erro ao analisar dataset: " ++ pyTruncate "boom" 150)
    ∧ (pyTruncate "boom" 150).length ≤ 150 :=
  ⟨(C2_analyze_dataset_safe (fun _ _ => 0) (Except.ok [])).1 [] rfl rfl,
   ((C2_analyze_dataset_safe (fun _ _ => 0) (Except.error "boom")).2.1 "boom" rfl).1,
   ((C2_analyze_dataset_safe (fun _ _ => 0) (Except.error "boom")).2.1 "boom" rfl).2⟩

/-- Counterexample to claim C6 as stated: on the single-element column
`[5]` the analysis does store the numeric profile, with std and skewness
equal to the float NaN — but the downstream display logic does not branch on
that value as a distinct sentinel: the skewness colour comparison
(`abs(skewness) > 1`) treats NaN as a normal float (the comparison is false)
and produces the very same colour as for the ordinary value 0. -/
theorem C6_counterexample :
    analyze_numeric_columns [⟨"x", [some 5]⟩] = some [("x", numericColStats [5])]
    ∧ (numericColStats [5]).std = PyFloat.nan
    ∧ (numericColStats [5]).skewness = PyFloat.nan
    ∧ skewColor PyFloat.nan = skewColor (PyFloat.val 0) := by
  refine ⟨rfl, rfl, rfl, ?_⟩
  simp [skewColor, pyGtQ, pyAbs]
  norm_num

/-- Claim C6 (amended): for every numeric column whose non-null values form a
single-element series, the analysis surfaces std and skewness as the float
NaN (the undefined value, distinct from every ordinary number and in
particular from 0), but as an ordinary float field rather than a sentinel
that downstream logic branches on: the display comparison evaluates NaN like
a normal float, yielding the default branch exactly as for an in-range
ordinary value. -/
theorem C6_amended_nan_single_element (v : ℚ) :
    (numericColStats [v]).std = PyFloat.nan
    ∧ (numericColStats [v]).skewness = PyFloat.nan
    ∧ (∀ q : ℚ, PyFloat.nan ≠ PyFloat.val q)
    ∧ skewColor (numericColStats [v]).skewness = skewColor (PyFloat.val 0) := by
  refine ⟨rfl, rfl, fun q h => PyFloat.noConfusion h, ?_⟩
  simp [skewColor, pyGtQ, pyAbs, numericColStats, seriesSkew, seriesMean]
  norm_num

/-! ### Missingness lemmas -/

lemma filter_cnt_sum (l : List MissItem) :
    ((l.filter fun it => decide (0 < it.cnt)).map fun it => it.cnt).sum
      = (l.map fun it => it.cnt).sum := by
  induction l with
  | nil => rfl
  | cons a t ih =>
    by_cases h : 0 < a.cnt
    · simp [List.filter_cons, h, ih]
    · have h0 : a.cnt = 0 := by omega
      simp [List.filter_cons, h, ih, h0]

lemma missingItems_cnt_sum (df : Frame) :
    ((missingItems df).map fun it => it.cnt).sum
      = (df.map fun c => nullCount c.cells).sum := by
  unfold missingItems
  rw [filter_cnt_sum, List.map_map]
  conv_rhs => rw [← List.enum_map_snd df, List.map_map]
  rfl

lemma sortedMissing_perm (df : Frame) : (sortedMissing df).Perm (missingItems df) :=
  (List.reverse_perm _).trans (List.perm_insertionSort _ _)

lemma orderedInsert_lex (x : MissItem) (s : List MissItem)
    (hs : s.Pairwise fun a b => a.cnt < b.cnt ∨ (a.cnt = b.cnt ∧ a.idx < b.idx))
    (hx : ∀ y ∈ s, x.idx < y.idx) :
    (s.orderedInsert (fun a b => a.cnt ≤ b.cnt) x).Pairwise
      fun a b => a.cnt < b.cnt ∨ (a.cnt = b.cnt ∧ a.idx < b.idx) := by
  induction s with
  | nil => simp [List.orderedInsert]
  | cons b t ih =>
    rw [List.orderedInsert]
    split_ifs with hcb
    · refine List.Pairwise.cons ?_ hs
      intro y hy
      rcases List.mem_cons.mp hy with rfl | hyt
      · rcases lt_or_eq_of_le hcb with h | h
        · exact Or.inl h
        · exact Or.inr ⟨h, hx y (by simp)⟩
      · have hby := (List.pairwise_cons.mp hs).1 y hyt
        rcases hby with h | ⟨h1, h2⟩
        · rcases lt_or_eq_of_le hcb with h2 | h2
          · exact Or.inl (lt_trans h2 h)
          · exact Or.inl (h2 ▸ h)
        · rcases lt_or_eq_of_le hcb with h3 | h3
          · exact Or.inl (h1 ▸ h3)
          · exact Or.inr ⟨h3.trans h1, hx y (by simp [hyt])⟩
    · have hs1 := List.pairwise_cons.mp hs
      refine List.Pairwise.cons ?_ (ih hs1.2 fun y hy => hx y (by simp [hy]))
      intro y hy
      rcases (List.mem_orderedInsert _).mp hy with rfl | hyt
      · exact Or.inl (not_le.mp hcb)
      · exact hs1.1 y hyt

/-- Stability of the ascending sort: sorting items (whose original indices
are strictly increasing) by count alone yields the lexicographic
(count, original index) order, because insertion keeps earlier items in
front of equal-count later ones. -/
lemma insertionSort_lex (l : List MissItem)
    (h : l.Pairwise fun a b => a.idx < b.idx) :
    (l.insertionSort fun a b => a.cnt ≤ b.cnt).Pairwise
      fun a b => a.cnt < b.cnt ∨ (a.cnt = b.cnt ∧ a.idx < b.idx) := by
  induction l with
  | nil => simp [List.insertionSort]
  | cons x t ih =>
    rw [List.insertionSort]
    have h1 := List.pairwise_cons.mp h
    apply orderedInsert_lex
    · exact ih h1.2
    · intro y hy
      exact h1.1 y ((List.perm_insertionSort _ t).mem_iff.mp hy)

lemma enum_fst_pairwise (l : Frame) : l.enum.Pairwise fun p q => p.1 < q.1 := by
  rw [List.pairwise_iff_get]
  intro i j hij
  rw [List.get_eq_getElem, List.get_eq_getElem, List.getElem_enum, List.getElem_enum]
  simpa using hij

lemma missingItems_idx_sorted (df : Frame) :
    (missingItems df).Pairwise fun a b => a.idx < b.idx := by
  unfold missingItems
  apply List.Pairwise.filter
  exact (enum_fst_pairwise df).map _ fun a b hab => hab

/-- Counterexample to claim C8 as stated: with two columns `a`, `b` each
holding exactly one null, the per-column mapping comes out `[b, a]` — columns
of equal null count appear in REVERSE original order, not original order,
because pandas obtains the descending order by reversing a stable ascending
argsort. -/
theorem C8_counterexample :
    (analyze_missing_data [⟨"a", [none]⟩, ⟨"b", [none]⟩]).missing_columns
        = [("b", 1), ("a", 1)]
    ∧ (analyze_missing_data [⟨"a", [none]⟩, ⟨"b", [none]⟩]).missing_columns
        ≠ [("a", 1), ("b", 1)] := by
  refine ⟨rfl, ?_⟩
  intro h
  have h2 : (("b", 1) : String × ℕ) = ("a", 1) := by
    have h1 : (analyze_missing_data [⟨"a", [none]⟩, ⟨"b", [none]⟩]).missing_columns
        = [("b", 1), ("a", 1)] := rfl
    rw [h1] at h
    exact (List.cons.injEq _ _ _ _ ▸ h).1
  simp at h2

/-- Claim C8 (amended): the per-column mapping of the missingness analysis
consists of exactly the columns with a positive null count, ordered by null
count descending; columns of EQUAL null count appear in reverse of their
original column order, because the descending order is the reverse of a
stable ascending sort. -/
theorem C8_missing_columns_order (df : Frame) :
    (analyze_missing_data df).missing_columns
        = (sortedMissing df).map (fun it => (it.name, it.cnt))
    ∧ (sortedMissing df).Perm (missingItems df)
    ∧ (∀ it ∈ missingItems df, 0 < it.cnt)
    ∧ (∀ (k : ℕ) (hk : k < df.length), 0 < nullCount df[k].cells →
        MissItem.mk k df[k].name (nullCount df[k].cells) ∈ sortedMissing df)
    ∧ (sortedMissing df).Pairwise
        fun a b => b.cnt < a.cnt ∨ (b.cnt = a.cnt ∧ b.idx < a.idx) := by
  refine ⟨?_, sortedMissing_perm df, ?_, ?_, ?_⟩
  · simp only [analyze_missing_data]
    split_ifs with h
    · rw [List.isEmpty_iff] at h
      rw [h]
      rfl
    · rfl
  · intro it hit
    unfold missingItems at hit
    rw [List.mem_filter] at hit
    simpa using hit.2
  · intro k hk hcnt
    rw [(sortedMissing_perm df).mem_iff]
    unfold missingItems
    rw [List.mem_filter]
    constructor
    · rw [List.mem_map]
      refine ⟨(k, df[k]), ?_, rfl⟩
      rw [List.mem_enum_iff_getElem?]
      exact List.getElem?_eq_getElem hk
    · simpa using hcnt
  · unfold sortedMissing
    rw [List.pairwise_reverse]
    exact insertionSort_lex _ (missingItems_idx_sorted df)

/-- Witness for C8: in the two-column frame of the counterexample, column
`b` (index 1, one null) is listed. -/
theorem C8_witness :
    MissItem.mk 1 "b" 1 ∈ sortedMissing [⟨"a", [none]⟩, ⟨"b", [none]⟩] :=
  (C8_missing_columns_order [⟨"a", [none]⟩, ⟨"b", [none]⟩]).2.2.2.1 1 (by norm_num)
    (by decide)

/-- Counterexample to claim C7 as stated: on a dataset with no nulls the
missingness analysis reports `has_missing = false` and an empty column list,
but the `missing_percentage` field is ABSENT from the returned dictionary
(`none`), not present with value 0. -/
theorem C7_counterexample :
    (analyze_missing_data [⟨"a", [some 1]⟩]).has_missing = false
    ∧ (analyze_missing_data [⟨"a", [some 1]⟩]).missing_columns = []
    ∧ (analyze_missing_data [⟨"a", [some 1]⟩]).missing_percentage ≠ some 0 := by
  refine ⟨rfl, rfl, ?_⟩
  intro h
  have h1 : (analyze_missing_data [⟨"a", [some 1]⟩]).missing_percentage = none := rfl
  rw [h1] at h
  exact Option.noConfusion h

/-- Claim C7 (amended): if no column has a null, the missingness analysis
reports `has_missing = false`, an empty column list, and OMITS the total and
percentage fields; otherwise it reports `total_missing` equal to the sum of
the per-column null counts and
`missing_percentage = total_missing / row_count * 100`. -/
theorem C7_missingness_totals (df : Frame) :
    ((∀ c ∈ df, nullCount c.cells = 0) →
      analyze_missing_data df = ⟨false, [], none, none⟩)
    ∧ ((∃ c ∈ df, 0 < nullCount c.cells) →
      (analyze_missing_data df).has_missing = true
      ∧ (analyze_missing_data df).total_missing
          = some ((df.map fun c => nullCount c.cells).sum)
      ∧ (analyze_missing_data df).missing_percentage
          = some ((((df.map fun c => nullCount c.cells).sum : ℚ)
              / (rowCount df : ℚ)) * 100)) := by
  constructor
  · intro hz
    have hitems : missingItems df = [] := by
      unfold missingItems
      rw [List.filter_eq_nil_iff]
      intro it hit
      rw [List.mem_map] at hit
      obtain ⟨p, hp, rfl⟩ := hit
      have h2 : p.2 ∈ df := by
        have h3 := List.mem_map_of_mem Prod.snd hp
        rwa [List.enum_map_snd] at h3
      simp [hz p.2 h2]
    have hsm : sortedMissing df = [] := by
      unfold sortedMissing
      rw [hitems]
      rfl
    simp [analyze_missing_data, hsm]
  · intro hex
    have hne : missingItems df ≠ [] := by
      obtain ⟨c, hc, hcnt⟩ := hex
      obtain ⟨n, hn⟩ := List.mem_iff_get.mp hc
      intro hempty
      have hmem : MissItem.mk n.1 c.name (nullCount c.cells) ∈ missingItems df := by
        unfold missingItems
        rw [List.mem_filter]
        constructor
        · rw [List.mem_map]
          refine ⟨(n.1, c), ?_, rfl⟩
          rw [List.mem_enum_iff_getElem?]
          rw [List.getElem?_eq_getElem n.2]
          rw [← List.get_eq_getElem, hn]
        · simpa using hcnt
      rw [hempty] at hmem
      exact List.not_mem_nil _ hmem
    have hsm : (sortedMissing df).isEmpty = false := by
      rcases h : sortedMissing df with _ | ⟨x, t⟩
      · exfalso
        apply hne
        have hl := (sortedMissing_perm df).length_eq
        rw [h] at hl
        exact List.length_eq_zero.mp hl.symm
      · rfl
    have hsum : ((sortedMissing df).map fun it => it.cnt).sum
        = (df.map fun c => nullCount c.cells).sum := by
      rw [((sortedMissing_perm df).map fun it => it.cnt).sum_eq]
      exact missingItems_cnt_sum df
    refine ⟨?_, ?_, ?_⟩
    · simp only [analyze_missing_data, hsm, Bool.false_eq_true, if_false]
    · simp only [analyze_missing_data, hsm, Bool.false_eq_true, if_false]
      rw [hsum]
    · simp only [analyze_missing_data, hsm, Bool.false_eq_true, if_false]
      rw [hsum]

/-- Witness for C7: a null-free single column yields the bare summary, and a
column with one null yields the totals. -/
theorem C7_witness :
    analyze_missing_data [⟨"a", [some 1]⟩] = ⟨false, [], none, none⟩
    ∧ ((analyze_missing_data [⟨"b", [none, some 1]⟩]).has_missing = true
      ∧ (analyze_missing_data [⟨"b", [none, some 1]⟩]).total_missing
          = some ((([⟨"b", [none, some 1]⟩] : Frame).map fun c => nullCount c.cells).sum)
      ∧ (analyze_missing_data [⟨"b", [none, some 1]⟩]).missing_percentage
          = some ((((([⟨"b", [none, some 1]⟩] : Frame).map fun c => nullCount c.cells).sum : ℚ)
              / (rowCount [⟨"b", [none, some 1]⟩] : ℚ)) * 100)) :=
  ⟨(C7_missingness_totals ([⟨"a", [some 1]⟩] : Frame)).1 (by decide),
   (C7_missingness_totals ([⟨"b", [none, some 1]⟩] : Frame)).2
     ⟨Column.mk "b" [none, some 1], by simp, by decide⟩⟩

/-! ### Correlation lemmas -/

lemma strongCorrelations_mem (n : ℕ) (corr : ℕ → ℕ → ℚ) (p : ℕ × ℕ × ℚ) :
    p ∈ strongCorrelations n corr
      ↔ p.1 < p.2.1 ∧ p.2.1 < n ∧ 7/10 < |corr p.1 p.2.1| ∧ p.2.2 = corr p.1 p.2.1 := by
  obtain ⟨pi, pj, pr⟩ := p
  dsimp only
  unfold strongCorrelations
  rw [List.mem_flatMap]
  constructor
  · rintro ⟨i, hi, hp⟩
    rw [List.mem_filterMap] at hp
    obtain ⟨j, hj, hfj⟩ := hp
    rw [List.mem_range] at hi
    rw [List.mem_range'_1] at hj
    split_ifs at hfj with habs
    rw [Option.some_inj] at hfj
    have hcomp : i = pi ∧ j = pj ∧ corr i j = pr := by
      simpa [Prod.ext_iff] using hfj
    obtain ⟨rfl, rfl, rfl⟩ := hcomp
    refine ⟨by omega, by omega, habs, rfl⟩
  · rintro ⟨h1, h2, h3, h4⟩
    refine ⟨pi, ?_, ?_⟩
    · rw [List.mem_range]
      omega
    · rw [List.mem_filterMap]
      refine ⟨pj, ?_, ?_⟩
      · rw [List.mem_range'_1]
        omega
      · rw [if_pos h3, Option.some_inj, h4]

lemma strongCorrelations_pairwise (n : ℕ) (corr : ℕ → ℕ → ℚ) :
    (strongCorrelations n corr).Pairwise
      fun p q => p.1 < q.1 ∨ (p.1 = q.1 ∧ p.2.1 < q.2.1) := by
  unfold strongCorrelations
  rw [List.pairwise_flatMap]
  constructor
  · intro i hi
    rw [List.pairwise_filterMap]
    refine (List.pairwise_lt_range' _ _).imp ?_
    intro j k hjk x hx y hy
    split_ifs at hx with c1
    · split_ifs at hy with c2
      · rw [Option.mem_def, Option.some_inj] at hx hy
        subst hx
        subst hy
        exact Or.inr ⟨rfl, hjk⟩
      · exact absurd hy (by simp)
    · exact absurd hx (by simp)
  · refine (List.pairwise_lt_range _).imp ?_
    intro i k hik x hx y hy
    rw [List.mem_filterMap] at hx hy
    obtain ⟨j, hj, hfj⟩ := hx
    obtain ⟨j2, hj2, hfj2⟩ := hy
    split_ifs at hfj with c1
    split_ifs at hfj2 with c2
    rw [Option.some_inj] at hfj hfj2
    subst hfj
    subst hfj2
    exact Or.inl hik

lemma strongCorrelations_nodup (n : ℕ) (corr : ℕ → ℕ → ℚ) :
    (strongCorrelations n corr).Nodup := by
  refine (strongCorrelations_pairwise n corr).imp ?_
  intro p q hpq heq
  subst heq
  rcases hpq with h | ⟨h1, h2⟩
  · exact lt_irrefl _ h
  · exact lt_irrefl _ h2

/-- Claim C5: the correlation analysis is absent exactly when there are fewer
than 2 numeric columns; otherwise its strong list contains exactly the pairs
`(i, j)` of column indices with `i < j` and `|r| > 0.70` (with the recorded
coefficient), each pair exactly once, ordered by `i` ascending then `j`
ascending, and `count_strong` is the length of that list.  The
floating-point Pearson matrix of `DataFrame.corr` enters as the oracle
`corr`. -/
theorem C5_strong_correlations (df : Frame) (corr : ℕ → ℕ → ℚ) :
    (analyze_correlations df corr = none ↔ df.length < 2)
    ∧ ∀ S, analyze_correlations df corr = some S →
        (∀ p : ℕ × ℕ × ℚ, p ∈ S.strong_correlations
          ↔ p.1 < p.2.1 ∧ p.2.1 < df.length ∧ 7/10 < |corr p.1 p.2.1|
            ∧ p.2.2 = corr p.1 p.2.1)
        ∧ S.strong_correlations.Nodup
        ∧ S.strong_correlations.Pairwise
            (fun p q => p.1 < q.1 ∨ (p.1 = q.1 ∧ p.2.1 < q.2.1))
        ∧ S.count_strong = S.strong_correlations.length := by
  constructor
  · unfold analyze_correlations
    split_ifs with h <;> simp [h]
  · intro S hS
    unfold analyze_correlations at hS
    split_ifs at hS with h
    rw [Option.some_inj] at hS
    subst hS
    exact ⟨strongCorrelations_mem _ _, strongCorrelations_nodup _ _,
      strongCorrelations_pairwise _ _, rfl⟩

/-- The correlation oracle used by the C5 witness. -/
def corrW : ℕ → ℕ → ℚ :=
  fun i j => if i = j then 1 else 9/10

/-- Witness for C5: on a 2-column dataset whose (oracle) correlation between
columns 0 and 1 is 0.9, the strong list contains the pair `(0, 1, 0.9)`. -/
theorem C5_witness :
    ((0 : ℕ), (1 : ℕ), (9/10 : ℚ)) ∈ strongCorrelations 2 corrW :=
  (((C5_strong_correlations ([⟨"a", [some 0]⟩, ⟨"b", [some 0]⟩] : Frame) corrW).2
      ⟨corrW, strongCorrelations 2 corrW, (strongCorrelations 2 corrW).length⟩ rfl).1
    (0, 1, 9/10)).mpr
    ⟨by norm_num, by norm_num,
     by
      have h : corrW 0 1 = 9/10 := by norm_num [corrW]
      rw [h, abs_of_pos (by norm_num : (0:ℚ) < 9/10)]
      norm_num,
     by norm_num [corrW]⟩
